import Mathlib

/-!
Verification development for the summary-backend service: a Node/Express
pipeline that extracts text from an uploaded PDF, splits it into bounded
chunks, and summarizes each chunk through a remote generative-text API with
retry/backoff. The definitions below are a shallow embedding of the
JavaScript source (src/app.js, src/unnamed/part_000..part_002); external
I/O (the PDF library, the OCR library, the LLM API) is modelled by explicit
oracles passed in as function arguments. JS strings are modelled as Lean
strings / lists of characters.
-/

namespace SummaryBackend

/-! ## JavaScript primitives used by the source -/

/-- The characters that a JavaScript regular-expression `.` (without the `s`
flag) does NOT match: the ECMAScript LineTerminator set — LF, CR, U+2028
LINE SEPARATOR, U+2029 PARAGRAPH SEPARATOR. -/
def isLineTerminator (c : Char) : Bool :=
  c = '\n' || c = '\r' || c = '\u2028' || c = '\u2029'

/-- Characters removed by JavaScript `String.prototype.trim` (the WhiteSpace
and LineTerminator productions; the common members). -/
def isJsSpace (c : Char) : Bool :=
  c = ' ' || c = '\t' || c = '\n' || c = '\r' || c = '\x0b' || c = '\x0c' ||
  c = '\u00A0' || c = '\uFEFF' || c = '\u2028' || c = '\u2029'

/-- JavaScript `s.trim()`: strip `isJsSpace` characters from both ends. -/
def jsTrim (s : String) : String :=
  String.mk (((s.data.dropWhile isJsSpace).reverse.dropWhile isJsSpace).reverse)

/-! ## Chunker

Every chunked variant splits the extracted text with
`text.match(new RegExp(`.{1,30000}`, 'g')) || []`
(src/unnamed/part_002, lines 86, 176, 305, 463).

A global match of `.{1,n}` scans left to right: at each position where a
non-LineTerminator character stands it greedily takes up to `n`
non-LineTerminator characters as one match, and positions holding a
LineTerminator are skipped.  Equivalently: split the text into maximal runs
of non-LineTerminator characters (the terminators themselves are dropped),
then cut each run into pieces of at most `n` characters, greedily.
`match` returns `null` when there is no match, which `|| []` turns into an
empty array. -/

/-- Maximal runs of non-LineTerminator characters, in order, collected with
an accumulator holding the current run reversed. -/
def splitRunsGo (cur : List Char) (s : List Char) : List (List Char) :=
  match s with
  | [] => if cur.isEmpty then [] else [cur.reverse]
  | c :: rest =>
    if isLineTerminator c then
      if cur.isEmpty then splitRunsGo [] rest
      else cur.reverse :: splitRunsGo [] rest
    else splitRunsGo (c :: cur) rest

/-- Maximal runs of non-LineTerminator characters of `s`, in order. -/
def splitRuns (s : List Char) : List (List Char) :=
  splitRunsGo [] s

/-- Greedily cut `l` into pieces of `n` characters (the last piece may be
shorter).  `fuel` bounds the recursion; `fuel = l.length` is always enough
when `n ≥ 1`. -/
def chunksOfAux (n : Nat) : Nat → List Char → List (List Char)
  | 0, _ => []
  | fuel + 1, l =>
    match l with
    | [] => []
    | c :: rest => (c :: rest.take (n - 1)) :: chunksOfAux n fuel (rest.drop (n - 1))

/-- Greedily cut `l` into pieces of at most `n` characters. -/
def chunksOf (n : Nat) (l : List Char) : List (List Char) :=
  chunksOfAux n l.length l

/-- `maxChunkLength` of every chunked variant (part_002 lines 85, 175, 304, 462). -/
def maxChunkLength : Nat := 30000

/-- The Chunker: `text.match(new RegExp(`.{1,30000}`, 'g')) || []`,
as a function on the character list of the text. -/
def chunkText (s : List Char) : List (List Char) :=
  ((splitRuns s).map (chunksOf maxChunkLength)).flatten

/-- The Chunker on a `String`, producing `String` chunks. -/
def chunkTextStr (s : String) : List String :=
  (chunkText s.data).map String.mk

/-! ## Text Extractor

`parsePDF` exists in several variants.  The PDF library is modelled by the
page structure it reports: a document is a list of pages, each page a list
of text items (`content.items[..].str`). -/

/-- One page's text: `content.items.map(item => item.str).join(' ')`. -/
def pageText (items : List String) : String :=
  String.intercalate " " items

/-- `parsePDF` of src/unnamed/part_000 lines 34–68: processes
`maxPages = Math.min(pdf.numPages, 50)` pages in order, concatenating the
page texts with no separator between pages. -/
def parsePDF_p000 (pages : List (List String)) : String :=
  String.join ((pages.take 50).map pageText)

/-- `parsePDF` of src/unnamed/part_001 lines 26–44: processes every page
(`for (let i = 1; i <= pdf.numPages; i++)`), with no page cap, concatenating
the page texts with no separator between pages. -/
def parsePDF_p001 (pages : List (List String)) : String :=
  String.join (pages.map pageText)

/-- Number of pages the part_000 extractor processes: `Math.min(pdf.numPages, 50)`. -/
def pagesProcessed_p000 (pages : List (List String)) : Nat :=
  min pages.length 50

/-- Number of pages the part_001 extractor processes: `pdf.numPages`. -/
def pagesProcessed_p001 (pages : List (List String)) : Nat :=
  pages.length

/-! ## Retry with backoff

`retryWithBackoff(fn, retries = 3, delayMs = 2000)` — identical in
src/app.js lines 133–144 and src/unnamed/part_001 lines 47–58:

    for (let i = 0; i < retries; i++) {
      try { return await fn(); }
      catch (error) {
        if (i === retries - 1) throw new Error('Exceeded retry attempts');
        await new Promise((resolve) => setTimeout(resolve, delayMs));
        delayMs *= 2;
      }
    }

The wrapped call `fn` is effectful (each invocation may behave differently),
so it is modelled as an oracle from the attempt index to that attempt's
outcome. The model records the outcome, the number of invocations of `fn`,
and the list of sleeps actually performed, in order. -/

/-- Outcome of the JS function: a returned value, a thrown error message, or
the `undefined` a `for` loop that never runs falls through to. -/
inductive RetryOutcome (α : Type) where
  | ok : α → RetryOutcome α
  | thrown : String → RetryOutcome α
  | undef : RetryOutcome α
deriving DecidableEq

/-- Observable trace of one `retryWithBackoff` run. -/
structure RetryTrace (α : Type) where
  outcome : RetryOutcome α
  attempts : Nat
  delays : List Nat
deriving DecidableEq

/-- The loop of `retryWithBackoff`, by recursion on the remaining iteration
count (`remaining = retries - i`). -/
def retryGo (fn : Nat → Except String α) : Nat → Nat → Nat → RetryTrace α
  | 0, _, _ => ⟨.undef, 0, []⟩
  | remaining + 1, i, delayMs =>
    match fn i with
    | .ok v => ⟨.ok v, 1, []⟩
    | .error _ =>
      if remaining = 0 then ⟨.thrown "Exceeded retry attempts", 1, []⟩
      else
        let t := retryGo fn remaining (i + 1) (delayMs * 2)
        ⟨t.outcome, t.attempts + 1, delayMs :: t.delays⟩

/-- `retryWithBackoff(fn, retries, delayMs)` (defaults `retries = 3`,
`delayMs = 2000` in both variants). -/
def retryWithBackoff (fn : Nat → Except String α) (retries : Nat := 3)
    (delayMs : Nat := 2000) : RetryTrace α :=
  retryGo fn retries 0 delayMs

/-! ## OCR-fallback extractor (src/unnamed/part_002 lines 402–455)

`parsePDF` there extracts up to 50 pages, appending `' '` after each page's
text, and if the whole extracted text trims to empty runs
`extractTextWithOCR` over the buffer, whose (trimmed) output wholesale
replaces the text; the final `return text.trim()`.  The whole body sits in
one `try`: a library parse error jumps straight to the `catch`, which
rethrows `'Failed to extract text from PDF'` — the OCR call is inside the
`try` *after* the page loop, so a parse error never reaches it.  An OCR
error (`'Failed to extract text using OCR'`) is likewise swallowed by the
same `catch`.  The PDF library is modelled as `Except` of a page structure
and the OCR engine as `Except` of its raw recognized text. -/

/-- The page-loop text of the OCR variant: up to 50 pages, each page's items
joined with `' '` and followed by `' '`. -/
def extractPagesText_ocrVariant (pages : List (List String)) : String :=
  String.join ((pages.take 50).map (fun items => pageText items ++ " "))

/-- `extractTextWithOCR` (part_002 lines 445–455): Tesseract's text, trimmed;
a recognition error becomes `'Failed to extract text using OCR'`. -/
def extractTextWithOCR (ocr : Except String String) : Except String String :=
  match ocr with
  | .error _ => .error "Failed to extract text using OCR"
  | .ok t => .ok (jsTrim t)

/-- `parsePDF` of the OCR variant (part_002 lines 402–443).  Returns the
extraction result paired with whether the OCR pass was invoked. -/
def parsePDF_ocr (primary : Except String (List (List String)))
    (ocr : Except String String) : Except String String × Bool :=
  match primary with
  | .error _ => (.error "Failed to extract text from PDF", false)
  | .ok pages =>
    let text := extractPagesText_ocrVariant pages
    if jsTrim text = "" then
      match extractTextWithOCR ocr with
      | .error _ => (.error "Failed to extract text from PDF", true)
      | .ok t => (.ok (jsTrim t), true)
    else (.ok (jsTrim text), false)

/-! ## Summarizer variants -/

/-- One attempt of `summarizeText` of src/unnamed/part_001 lines 61–82 (the
retry-wrapped, non-chunked variant): the API response is modelled by the
text found at `response?.response?.candidates?.[0]?.content?.parts?.[0]?.text`
(`.ok s`, with a missing path modelled as `.ok ""`) or a thrown API error
(`.error e`).  An optional-chained `.trim()` of a missing/empty text is
falsy, so `if (!summary) throw new Error('Invalid response format: No
summary found')`. -/
def summarizeAttempt_p001 (resp : Except String String) : Except String String :=
  match resp with
  | .error e => .error e
  | .ok s =>
    if jsTrim s = "" then .error "Invalid response format: No summary found"
    else .ok (jsTrim s)

/-- `summarizeText` of part_001: `retryWithBackoff` (3 attempts, base 2000ms)
around the per-attempt call, the attempt outcomes given by `resp`. -/
def summarizeText_p001 (resp : Nat → Except String String) : RetryTrace String :=
  retryWithBackoff (fun i => summarizeAttempt_p001 (resp i))

/-- The chunk loop of `summarizeText` in src/unnamed/part_002 lines 299–324
(same shape at lines 457–482): per chunk, the response's candidate text is
`r chunk` (`.ok s`; a missing path is modelled as `.ok ""`, a thrown API
error as `.error e`); `if (chunkSummary)` appends `chunkSummary + '\n\n'`
only when the trimmed text is non-empty, silently skipping the chunk
otherwise.  An API error aborts the loop and the `catch` rethrows
an error whose message is "Summarization failed: " followed by the original
message. -/
def summarizeChunks_v3 (r : String → Except String String) :
    List String → Except String String
  | [] => .ok ""
  | c :: rest =>
    match r c with
    | .error e => .error ("Summarization failed: " ++ e)
    | .ok resp =>
      match summarizeChunks_v3 r rest with
      | .error e => .error e
      | .ok tail =>
        .ok ((if jsTrim resp = "" then "" else jsTrim resp ++ "\n\n") ++ tail)

/-- `summarizeText` of part_002 lines 299–324: chunk the text, run the chunk
loop, `return fullSummary.trim()`. -/
def summarizeText_v3 (r : String → Except String String) (text : String) :
    Except String String :=
  match summarizeChunks_v3 r (chunkTextStr text) with
  | .error e => .error e
  | .ok s => .ok (jsTrim s)

/-- Whether an `Except` result is a success (no exception thrown). -/
def isOkE (x : Except String String) : Bool :=
  match x with
  | .ok _ => true
  | .error _ => false

/-! ## Upload endpoint models -/

/-- The observable part of an HTTP response of the upload route. -/
structure HttpResponse where
  status : Nat
  success : Option Bool
  summary : Option String
  errMsg : Option String
deriving DecidableEq

/-- The `/upload` route of src/unnamed/part_000 lines 90–113, after the
file-presence and media-type validations: `text = await parsePDF(buffer)`
then `summary = await summarizeText(text)` then
`res.json({ success: true, summary })`; any thrown error is caught and
answered with `res.status(500).json({ success: false, error: message })`.
Extraction and summarization are oracles; the second component counts the
summarizer invocations. -/
def processUpload_p000 (extract : Except String String)
    (summarize : String → Except String String) : HttpResponse × Nat :=
  match extract with
  | .error e => (⟨500, some false, none, some e⟩, 0)
  | .ok text =>
    match summarize text with
    | .error e => (⟨500, some false, none, some e⟩, 1)
    | .ok s => (⟨200, some true, some s, none⟩, 1)

/-- The chunk loop of the `/upload` route of src/unnamed/part_002 lines
85–95: `summary = ''`, then for each chunk
`summary += await summarizeText(chunk) + '\n\n'`.  Returns the accumulated
summary and the number of summarizer calls, or the first thrown error. -/
def runChunkLoop (summarize : String → Except String String) :
    List String → Except String (String × Nat)
  | [] => .ok ("", 0)
  | c :: rest =>
    match summarize c with
    | .error e => .error e
    | .ok s =>
      match runChunkLoop summarize rest with
      | .error e => .error e
      | .ok (tail, n) => .ok (s ++ "\n\n" ++ tail, n + 1)

/-- The `/upload` route of src/unnamed/part_002 lines 60–105, after
validation and extraction: chunk the extracted text, run the chunk loop,
answer `res.json({ success: true, summary })` on success and
`res.status(500).json({ success: false, error: 'File processing failed', … })`
on a thrown error. -/
def processUpload_chunked (summarize : String → Except String String)
    (text : String) : HttpResponse :=
  match runChunkLoop summarize (chunkTextStr text) with
  | .error _ => ⟨500, some false, none, some "File processing failed"⟩
  | .ok (summary, _) => ⟨200, some true, some summary, none⟩

/-! ## General lemmas about the Chunker -/

theorem splitRunsGo_flatten (s : List Char) : ∀ cur : List Char,
    (splitRunsGo cur s).flatten
      = cur.reverse ++ s.filter (fun c => !(isLineTerminator c)) := by
  induction s with
  | nil =>
    intro cur
    cases cur with
    | nil => simp [splitRunsGo]
    | cons a as => simp [splitRunsGo]
  | cons c rest ih =>
    intro cur
    by_cases hc : isLineTerminator c
    · cases cur with
      | nil => simp [splitRunsGo, hc, ih]
      | cons a as => simp [splitRunsGo, hc, ih]
    · simp only [splitRunsGo, Bool.not_eq_true] at hc ⊢
      rw [hc]
      simp only [Bool.false_eq_true, if_false, ih (c :: cur), List.reverse_cons,
        List.filter_cons, hc]
      simp

theorem splitRuns_flatten (s : List Char) :
    (splitRuns s).flatten = s.filter (fun c => !(isLineTerminator c)) := by
  simpa using splitRunsGo_flatten s []

theorem splitRunsGo_no_term : ∀ s : List Char,
    (∀ c ∈ s, isLineTerminator c = false) →
    ∀ cur : List Char, cur ≠ [] ∨ s ≠ [] →
    splitRunsGo cur s = [cur.reverse ++ s] := by
  intro s
  induction s with
  | nil =>
    intro _ cur hor
    rcases hor with h | h
    · cases cur with
      | nil => exact absurd rfl h
      | cons a as => simp [splitRunsGo]
    · exact absurd rfl h
  | cons c rest ih =>
    intro hall cur _
    have hc : isLineTerminator c = false := hall c (by simp)
    have hrest : ∀ d ∈ rest, isLineTerminator d = false := by
      intro d hd
      exact hall d (by simp [hd])
    simp only [splitRunsGo, hc, Bool.false_eq_true, if_false]
    rw [ih hrest (c :: cur) (Or.inl (by simp))]
    simp

theorem splitRuns_no_term (s : List Char)
    (h : ∀ c ∈ s, isLineTerminator c = false) (hne : s ≠ []) :
    splitRuns s = [s] := by
  simpa using splitRunsGo_no_term s h [] (Or.inr hne)

theorem chunksOfAux_nil (n : Nat) : ∀ fuel, chunksOfAux n fuel [] = [] := by
  intro fuel
  cases fuel with
  | zero => rfl
  | succ f => rfl

theorem chunksOfAux_flatten (n : Nat) : ∀ fuel (l : List Char),
    l.length ≤ fuel → (chunksOfAux n fuel l).flatten = l := by
  intro fuel
  induction fuel with
  | zero =>
    intro l hl
    rw [List.length_eq_zero.mp (Nat.le_zero.mp hl)]
    rfl
  | succ f ih =>
    intro l hl
    cases l with
    | nil => rfl
    | cons c rest =>
      simp only [chunksOfAux, List.flatten_cons]
      rw [ih (rest.drop (n - 1)) (by simp at hl ⊢; omega)]
      simp [List.take_append_drop]

theorem chunksOf_flatten (n : Nat) (l : List Char) :
    (chunksOf n l).flatten = l :=
  chunksOfAux_flatten n l.length l le_rfl

theorem chunksOfAux_le (n : Nat) (hn : 0 < n) : ∀ fuel (l ch : List Char),
    ch ∈ chunksOfAux n fuel l → ch.length ≤ n := by
  intro fuel
  induction fuel with
  | zero =>
    intro l ch h
    simp [chunksOfAux] at h
  | succ f ih =>
    intro l ch h
    cases l with
    | nil => simp [chunksOfAux] at h
    | cons c rest =>
      simp only [chunksOfAux, List.mem_cons] at h
      rcases h with h | h
      · subst h
        simp only [List.length_cons, List.length_take]
        omega
      · exact ih _ _ h

theorem chunksOfAux_single (n : Nat) : ∀ fuel (l : List Char), l ≠ [] →
    l.length ≤ n → l.length ≤ fuel → chunksOfAux n fuel l = [l] := by
  intro fuel l hne hlen hfuel
  cases fuel with
  | zero =>
    rw [List.length_eq_zero.mp (Nat.le_zero.mp hfuel)] at hne
    exact absurd rfl hne
  | succ f =>
    cases l with
    | nil => exact absurd rfl hne
    | cons c rest =>
      have h1 : rest.length ≤ n - 1 := by simp at hlen; omega
      simp only [chunksOfAux]
      rw [List.take_of_length_le h1, List.drop_eq_nil_of_le h1, chunksOfAux_nil]

theorem chunksOfAux_length (n : Nat) (hn : 0 < n) : ∀ fuel (l : List Char),
    l ≠ [] → l.length ≤ fuel →
    (chunksOfAux n fuel l).length = (l.length + n - 1) / n := by
  intro fuel
  induction fuel with
  | zero =>
    intro l hne hl
    rw [List.length_eq_zero.mp (Nat.le_zero.mp hl)] at hne
    exact absurd rfl hne
  | succ f ih =>
    intro l hne hl
    cases l with
    | nil => exact absurd rfl hne
    | cons c rest =>
      by_cases hr : rest.length ≤ n - 1
      · rw [chunksOfAux_single n (f + 1) (c :: rest) hne (by simp; omega) hl]
        have h2 : rest.length + 1 + n - 1 = (rest.length) + n := by omega
        simp only [List.length_cons, List.length_singleton, h2]
        rw [Nat.add_div_right _ hn, Nat.div_eq_of_lt (by omega)]
        simp
      · have hrec : (rest.drop (n - 1)) ≠ [] := by
          intro hcon
          have := congrArg List.length hcon
          simp at this
          omega
        simp only [chunksOfAux, List.length_cons]
        rw [ih (rest.drop (n - 1)) hrec (by simp at hl ⊢; omega)]
        simp only [List.length_drop]
        have h3 : rest.length - (n - 1) + n - 1 = rest.length := by omega
        have h4 : rest.length + 1 + n - 1 = rest.length + n := by omega
        rw [h3, h4, Nat.add_div_right _ hn]

theorem flatten_map_chunksOf (n : Nat) : ∀ runs : List (List Char),
    ((runs.map (chunksOf n)).flatten).flatten = runs.flatten := by
  intro runs
  induction runs with
  | nil => rfl
  | cons r rs ih =>
    simp only [List.map_cons, List.flatten_cons, List.flatten_append, ih,
      chunksOf_flatten]

theorem chunkText_flatten (s : List Char) :
    (chunkText s).flatten = s.filter (fun c => !(isLineTerminator c)) := by
  rw [chunkText, flatten_map_chunksOf, splitRuns_flatten]

theorem chunkText_no_term (s : List Char)
    (h : ∀ c ∈ s, isLineTerminator c = false) (hne : s ≠ []) :
    chunkText s = chunksOf maxChunkLength s := by
  rw [chunkText, splitRuns_no_term s h hne]
  simp

/-! ## General lemmas about the retry wrapper -/

theorem retryGo_attempts_pos (fn : Nat → Except String α) :
    ∀ r i d, 0 < r → 1 ≤ (retryGo fn r i d).attempts := by
  intro r i d hr
  cases r with
  | zero => exact absurd hr (by simp)
  | succ rm =>
    simp only [retryGo]
    cases fn i with
    | ok v => simp
    | error e =>
      by_cases h0 : rm = 0
      · simp [h0]
      · simp [h0]

theorem retryGo_thrown_msg (fn : Nat → Except String α) :
    ∀ r i d m, (retryGo fn r i d).outcome = .thrown m →
    m = "Exceeded retry attempts" := by
  intro r
  induction r with
  | zero =>
    intro i d m h
    simp [retryGo] at h
  | succ rm ih =>
    intro i d m h
    simp only [retryGo] at h
    cases hfn : fn i with
    | ok v => rw [hfn] at h; simp at h
    | error e =>
      rw [hfn] at h
      by_cases h0 : rm = 0
      · simp [h0] at h
        exact h.symm
      · simp [h0] at h
        exact ih (i + 1) (d * 2) m h

/-! ## General lemma about the chunked summarizer -/

theorem summarizeChunks_v3_ok (r : String → Except String String)
    (hok : ∀ c, ∃ s, r c = .ok s) :
    ∀ chunks : List String, ∃ s, summarizeChunks_v3 r chunks = .ok s := by
  intro chunks
  induction chunks with
  | nil => exact ⟨"", rfl⟩
  | cons c rest ih =>
    obtain ⟨s, hs⟩ := hok c
    obtain ⟨tail, htail⟩ := ih
    refine ⟨(if jsTrim s = "" then "" else jsTrim s ++ "\n\n") ++ tail, ?_⟩
    simp [summarizeChunks_v3, hs, htail]

/-! ## Retry helper lemmas for the claims -/

theorem retryGo_attempts_two (fn : Nat → Except String α) (rm i d : Nat)
    (hrm : 0 < rm) (e : String) (h : fn i = .error e) :
    2 ≤ (retryGo fn (rm + 1) i d).attempts := by
  have h0 : ¬ rm = 0 := by omega
  simp only [retryGo, h, h0, if_false]
  have := retryGo_attempts_pos fn rm (i + 1) (d * 2) hrm
  omega

theorem retryGo_all_fail (fn : Nat → Except String α) :
    ∀ r i d, 0 < r → (∀ j, j < r → ∃ e, fn (i + j) = .error e) →
    (retryGo fn r i d).outcome = .thrown "Exceeded retry attempts" ∧
    (retryGo fn r i d).attempts = r := by
  intro r
  induction r with
  | zero =>
    intro i d hr _
    omega
  | succ rm ih =>
    intro i d _ hfail
    obtain ⟨e, he⟩ := hfail 0 (by omega)
    rw [Nat.add_zero] at he
    by_cases h0 : rm = 0
    · subst h0
      simp [retryGo, he]
    · have ihr := ih (i + 1) (d * 2) (by omega) (fun j hj => by
        have hx := hfail (j + 1) (by omega)
        rwa [show i + (j + 1) = i + 1 + j by omega] at hx)
      simp [retryGo, he, h0, ihr.1, ihr.2]

theorem range_map_double (d km : Nat) :
    d :: (List.range km).map (fun j => d * 2 * 2 ^ j)
      = (List.range (km + 1)).map (fun j => d * 2 ^ j) := by
  rw [List.range_succ_eq_map, List.map_cons, List.map_map]
  refine congrArg₂ List.cons (by simp) ?_
  refine List.map_congr_left (fun a _ => ?_)
  simp [Function.comp, pow_succ]
  ring

theorem retryGo_fail_then_ok (fn : Nat → Except String α) :
    ∀ k r i d v, k < r → (∀ j, j < k → ∃ e, fn (i + j) = .error e) →
    fn (i + k) = .ok v →
    (retryGo fn r i d).outcome = .ok v ∧
    (retryGo fn r i d).attempts = k + 1 ∧
    (retryGo fn r i d).delays = (List.range k).map (fun j => d * 2 ^ j) := by
  intro k
  induction k with
  | zero =>
    intro r i d v hk _ hok
    cases r with
    | zero => omega
    | succ rm =>
      rw [Nat.add_zero] at hok
      simp [retryGo, hok]
  | succ km ih =>
    intro r i d v hk hfail hok
    cases r with
    | zero => omega
    | succ rm =>
      obtain ⟨e, he⟩ := hfail 0 (by omega)
      rw [Nat.add_zero] at he
      have h0 : ¬ rm = 0 := by omega
      have ihr := ih rm (i + 1) (d * 2) v (by omega)
        (fun j hj => by
          have hx := hfail (j + 1) (by omega)
          rwa [show i + (j + 1) = i + 1 + j by omega] at hx)
        (by rwa [show i + 1 + km = i + (km + 1) by omega])
      simp only [retryGo, he, h0, if_false]
      refine ⟨ihr.1, by simp [ihr.2.1], ?_⟩
      simp only [ihr.2.2]
      exact range_map_double d km

theorem pow_delays_pairwise (d k : Nat) :
    List.Pairwise (· ≤ ·) ((List.range k).map (fun j => d * 2 ^ j)) := by
  refine (List.pairwise_lt_range k).map _ (fun a b hab => ?_)
  exact Nat.mul_le_mul_left d (Nat.pow_le_pow_right (by omega) (Nat.le_of_lt hab))

/-! ## The claims -/

/-- C1, counterexample: the Chunker is not lossless.  JavaScript `.` does not
match a newline, so `'a\nb'.match(/.{1,30000}/g)` is `['a','b']` and the
concatenation of the chunks is `'ab'`, not the original text: a character is
dropped. -/
theorem c1_chunker_not_lossless :
    (chunkText "a\nb".data).flatten ≠ "a\nb".data ∧
    chunkText "a\nb".data = [['a'], ['b']] := by
  decide

/-- C1 (amended): concatenating the chunks in order yields the original text
with every LineTerminator character (LF, CR, U+2028, U+2029) removed; in
particular it yields exactly the original text whenever the text contains no
LineTerminator character. -/
theorem c1_chunker_lossless_amended (s : List Char) :
    (chunkText s).flatten = s.filter (fun c => !(isLineTerminator c)) ∧
    ((∀ c ∈ s, isLineTerminator c = false) → (chunkText s).flatten = s) := by
  refine ⟨chunkText_flatten s, fun h => ?_⟩
  rw [chunkText_flatten s]
  exact List.filter_eq_self.mpr (fun c hc => by simp [h c hc])

/-- C1 witness: on the LineTerminator-free text "hello world" the split is
lossless. -/
theorem c1_chunker_lossless_amended_witness :
    (chunkText "hello world".data).flatten = "hello world".data :=
  (c1_chunker_lossless_amended "hello world".data).2 (by decide)

/-- C2, counterexample: two texts of length at most 30000 for which the
Chunker does not produce exactly one chunk equal to the whole text: the
empty text produces zero chunks (`match` returns `null`, coerced to `[]`),
and "ab\ncd" produces two chunks. -/
theorem c2_chunk_count_counterexample :
    (("" : String).length ≤ maxChunkLength ∧ (chunkText "".data).length ≠ 1) ∧
    (("ab\ncd" : String).length ≤ maxChunkLength ∧
      (chunkText "ab\ncd".data).length ≠ 1) := by
  constructor
  · exact ⟨by decide, by decide⟩
  · constructor
    · simp [String.length]
      decide
    · decide

/-- C2 (amended): for every non-empty text containing no LineTerminator
character, the Chunker produces exactly ⌈L / 30000⌉ chunks, each of length
at most 30000, and if L ≤ 30000 it produces exactly one chunk equal to the
whole text. -/
theorem c2_chunk_count_amended (s : List Char) (hne : s ≠ [])
    (hterm : ∀ c ∈ s, isLineTerminator c = false) :
    (chunkText s).length = (s.length + maxChunkLength - 1) / maxChunkLength ∧
    (∀ ch ∈ chunkText s, ch.length ≤ maxChunkLength) ∧
    (s.length ≤ maxChunkLength → chunkText s = [s]) := by
  rw [chunkText_no_term s hterm hne]
  have hn : 0 < maxChunkLength := by decide
  refine ⟨chunksOfAux_length maxChunkLength hn s.length s hne le_rfl, ?_, ?_⟩
  · intro ch hch
    exact chunksOfAux_le maxChunkLength hn s.length s ch hch
  · intro hlen
    exact chunksOfAux_single maxChunkLength s.length s hne hlen le_rfl

/-- C2 witness: the three-character text "abc" yields the single chunk
equal to the whole text. -/
theorem c2_chunk_count_amended_witness :
    chunkText "abc".data = ["abc".data] :=
  (c2_chunk_count_amended "abc".data (by decide) (by decide)).2.2 (by decide)

/-- C3, counterexample: a call that always fails with a non-rate-limit error
("ECONNREFUSED", no HTTP 429 signal) is nevertheless attempted 3 times, and
the error propagated is the generic "Exceeded retry attempts", not the
original failure: `retryWithBackoff` inspects no error class at all. -/
theorem c3_retry_trigger_counterexample :
    (retryWithBackoff (fun _ => (Except.error "ECONNREFUSED" : Except String String))).attempts
        = 3 ∧
    (retryWithBackoff (fun _ => (Except.error "ECONNREFUSED" : Except String String))).outcome
        = .thrown "Exceeded retry attempts" ∧
    (retryWithBackoff (fun _ => (Except.error "ECONNREFUSED" : Except String String))).outcome
        ≠ .thrown "ECONNREFUSED" := by
  decide

/-- C3 (amended): the retry wrapper retries every failure class alike — after
any first-attempt failure, whatever its error, a second attempt is made (no
immediate abort), and the only error message the wrapper itself ever
propagates by throwing is "Exceeded retry attempts". -/
theorem c3_retry_trigger_amended (fn : Nat → Except String String) (e : String)
    (h : fn 0 = .error e) :
    2 ≤ (retryWithBackoff fn).attempts ∧
    ∀ m, (retryWithBackoff fn).outcome = .thrown m →
      m = "Exceeded retry attempts" := by
  refine ⟨?_, fun m hm => retryGo_thrown_msg fn 3 0 2000 m hm⟩
  exact retryGo_attempts_two fn 2 0 2000 (by omega) e h

/-- C3 witness: a first-attempt "ECONNREFUSED" failure is followed by a second
attempt. -/
theorem c3_retry_trigger_amended_witness :
    2 ≤ (retryWithBackoff
      (fun _ => (Except.error "ECONNREFUSED" : Except String String))).attempts :=
  (c3_retry_trigger_amended _ "ECONNREFUSED" rfl).1

/-- C4 (confirmed): when every attempt fails, `retryWithBackoff` (the default
`retries = 3` used by both retry-based variants) invokes the wrapped call
exactly 3 times and then throws "Exceeded retry attempts". -/
theorem c4_retry_exhaustion (fn : Nat → Except String String)
    (h : ∀ i, i < 3 → ∃ e, fn i = .error e) :
    (retryWithBackoff fn).outcome = .thrown "Exceeded retry attempts" ∧
    (retryWithBackoff fn).attempts = 3 :=
  retryGo_all_fail fn 3 0 2000 (by omega)
    (fun j hj => by simpa using h j hj)

/-- C4 witness: a call that always fails with a rate-limit signal exhausts
exactly 3 attempts and throws "Exceeded retry attempts". -/
theorem c4_retry_exhaustion_witness :
    (retryWithBackoff
      (fun _ => (Except.error "429 Too Many Requests" : Except String String))).outcome
        = .thrown "Exceeded retry attempts" ∧
    (retryWithBackoff
      (fun _ => (Except.error "429 Too Many Requests" : Except String String))).attempts
        = 3 :=
  c4_retry_exhaustion _ (fun _ _ => ⟨"429 Too Many Requests", rfl⟩)

/-- C5 (confirmed): if a wrapped call fails exactly k times (k < 3) and then
succeeds, the wrapper returns the successful result unchanged after k + 1
invocations, and the inserted delays are 2000·2^0, 2000·2^1, …, 2000·2^(k-1)
— doubling from the 2000ms base, hence monotonically non-decreasing. -/
theorem c5_backoff_schedule (fn : Nat → Except String String) (k : Nat)
    (v : String) (hk : k < 3) (hfail : ∀ i, i < k → ∃ e, fn i = .error e)
    (hok : fn k = .ok v) :
    (retryWithBackoff fn).outcome = .ok v ∧
    (retryWithBackoff fn).attempts = k + 1 ∧
    (retryWithBackoff fn).delays = (List.range k).map (fun j => 2000 * 2 ^ j) ∧
    List.Pairwise (· ≤ ·) (retryWithBackoff fn).delays := by
  have h := retryGo_fail_then_ok fn k 3 0 2000 v hk
    (fun j hj => by simpa using hfail j hj) (by simpa using hok)
  have hd : (retryWithBackoff fn).delays
      = (List.range k).map (fun j => 2000 * 2 ^ j) := h.2.2
  refine ⟨h.1, h.2.1, hd, ?_⟩
  rw [hd]
  exact pow_delays_pairwise 2000 k

/-- C5 witness: two rate-limit failures then a success return the successful
result after delays 2000ms and 4000ms. -/
theorem c5_backoff_schedule_witness :
    (retryWithBackoff (fun i =>
      if i < 2 then (Except.error "429" : Except String String)
      else .ok "done")).outcome = .ok "done" :=
  (c5_backoff_schedule _ 2 "done" (by omega)
    (fun i hi => ⟨"429", by simp [hi]⟩) (by simp)).1

/-- C6, counterexample: the part_000 pipeline performs no minimum-text check.
With extraction yielding the empty string (length 0 < 10) and a summarizer
that answers normally, the summarizer is still invoked (once) and the route
answers HTTP 200 with `success: true` — not HTTP 500 with an
insufficient-text error. -/
theorem c6_insufficient_text_counterexample :
    processUpload_p000 (Except.ok "") (fun _ => Except.ok "SUMMARY")
      = (⟨200, some true, some "SUMMARY", none⟩, 1) ∧
    ("" : String).length < 10 := by
  exact ⟨rfl, by decide⟩

/-- C6 (amended): the part_000 handler passes whatever extracted text it gets
— of any length, including empty — to the summarizer exactly once; the
response is HTTP 200 exactly when that summarization call succeeds, so a 500
arises only from a thrown extraction or summarization error, never from a
minimum-length check. -/
theorem c6_insufficient_text_amended (t : String)
    (summarize : String → Except String String) :
    (processUpload_p000 (Except.ok t) summarize).2 = 1 ∧
    ((processUpload_p000 (Except.ok t) summarize).1.status = 200 ↔
      ∃ v, summarize t = Except.ok v) := by
  cases hs : summarize t with
  | error e => simp [processUpload_p000, hs]
  | ok v => simp [processUpload_p000, hs]

/-- C7, counterexample: the part_001 extractor has no page cap.  On a
51-page document it processes 51 pages (not min(51, 50) = 50), and its
output depends on the 51st page's content. -/
theorem c7_page_cap_counterexample :
    pagesProcessed_p001 (List.replicate 50 ["a"] ++ [["Z"]]) = 51 ∧
    parsePDF_p001 (List.replicate 50 ["a"] ++ [["Z"]])
      ≠ parsePDF_p001 (List.replicate 50 ["a"]) := by
  decide

theorem take_append_of_le {α : Type} :
    ∀ (n : Nat) (l₁ l₂ : List α), n ≤ l₁.length →
    (l₁ ++ l₂).take n = l₁.take n := by
  intro n
  induction n with
  | zero =>
    intro l₁ l₂ _
    simp
  | succ m ih =>
    intro l₁ l₂ h
    cases l₁ with
    | nil => simp at h
    | cons a as =>
      simp only [List.cons_append, List.take_succ_cons]
      rw [ih as l₂ (by simp at h; omega)]

/-- C7 (amended): the page cap holds only in the capped variants.  The
part_000 extractor (`maxPages = Math.min(pdf.numPages, 50)`) reads exactly
the first 50 pages in page order — appending pages beyond the 50th does not
change its output — and on documents of at most 50 pages it agrees with the
uncapped part_001 extractor, which itself processes every page. -/
theorem c7_page_cap_amended (pages extra : List (List String)) :
    (50 ≤ pages.length →
      parsePDF_p000 (pages ++ extra) = parsePDF_p000 pages) ∧
    (pages.length ≤ 50 → parsePDF_p000 pages = parsePDF_p001 pages) := by
  constructor
  · intro h
    unfold parsePDF_p000
    rw [take_append_of_le 50 pages extra h]
  · intro h
    unfold parsePDF_p000 parsePDF_p001
    rw [List.take_of_length_le h]

/-- C7 witness: a 51st page does not change the part_000 extractor's output. -/
theorem c7_page_cap_amended_witness :
    parsePDF_p000 (List.replicate 50 ["a"] ++ [["Z"]])
      = parsePDF_p000 (List.replicate 50 ["a"]) :=
  (c7_page_cap_amended (List.replicate 50 ["a"]) [["Z"]]).1 (by decide)

/-- C8, counterexample: (a) when the primary extraction throws a parse error,
the OCR fallback is NOT invoked — the error propagates directly (the OCR
call sits inside the same `try`, after the page loop); (b) when the OCR
fallback yields "ab" (2 characters, below any 10-character minimum), that
text is returned as a successful extraction rather than failing; (c) when
the primary extraction yields "abc" (3 characters, below the claimed
10-character minimum threshold but not trimming to empty), the OCR fallback
is NOT invoked and "abc" is returned as a successful extraction. -/
theorem c8_ocr_fallback_counterexample :
    parsePDF_ocr (Except.error "bad xref") (Except.ok "recovered text")
      = (Except.error "Failed to extract text from PDF", false) ∧
    parsePDF_ocr (Except.ok [[""]]) (Except.ok "ab")
      = (Except.ok "ab", true) ∧
    parsePDF_ocr (Except.ok [["abc"]]) (Except.ok "long recovered ocr text")
      = (Except.ok "abc", false) :=
  ⟨rfl, rfl, rfl⟩

/-- C8 (amended): the OCR fallback is invoked exactly when the primary
extraction succeeds but its text trims to empty: (i) if the primary text
trims to empty, OCR runs and its text — however short, with no
minimum-length requirement — is returned trimmed, failing only if the OCR
pass itself throws; (ii) if the primary text does not trim to empty (even
when shorter than any minimum threshold), OCR is not invoked and that text
is returned trimmed; (iii) a primary parse error propagates as "Failed to
extract text from PDF" with no OCR attempt. -/
theorem c8_ocr_fallback_amended (pages : List (List String))
    (ocr : Except String String) :
    (jsTrim (extractPagesText_ocrVariant pages) = "" →
      (parsePDF_ocr (Except.ok pages) ocr).2 = true ∧
      (∀ t, ocr = Except.ok t →
        parsePDF_ocr (Except.ok pages) ocr
          = (Except.ok (jsTrim (jsTrim t)), true)) ∧
      (∀ e, ocr = Except.error e →
        parsePDF_ocr (Except.ok pages) ocr
          = (Except.error "Failed to extract text from PDF", true))) ∧
    (jsTrim (extractPagesText_ocrVariant pages) ≠ "" →
      parsePDF_ocr (Except.ok pages) ocr
        = (Except.ok (jsTrim (extractPagesText_ocrVariant pages)), false)) ∧
    (∀ e, parsePDF_ocr (Except.error e) ocr
        = (Except.error "Failed to extract text from PDF", false)) := by
  refine ⟨fun h => ?_, fun h => ?_, fun e => rfl⟩
  · cases ocr with
    | ok t0 =>
      refine ⟨?_, ?_, ?_⟩
      · simp [parsePDF_ocr, extractTextWithOCR, h]
      · intro t ht
        injection ht with ht0
        subst ht0
        simp [parsePDF_ocr, extractTextWithOCR, h]
      · intro e he
        exact absurd he (by simp)
    | error e0 =>
      refine ⟨?_, ?_, ?_⟩
      · simp [parsePDF_ocr, extractTextWithOCR, h]
      · intro t ht
        exact absurd ht (by simp)
      · intro e he
        simp [parsePDF_ocr, extractTextWithOCR, h]
  · simp [parsePDF_ocr, h]

/-- C8 witness: on a document whose page text trims to empty the OCR pass is
invoked, and on a document whose page text "abc" does not trim to empty —
though below a 10-character minimum — OCR is skipped and "abc" returned. -/
theorem c8_ocr_fallback_amended_witness :
    (parsePDF_ocr (Except.ok ([] : List (List String)))
      (Except.ok " scanned page ")).2 = true ∧
    parsePDF_ocr (Except.ok [["abc"]]) (Except.error "ocr down")
      = (Except.ok "abc", false) :=
  ⟨((c8_ocr_fallback_amended [] (Except.ok " scanned page ")).1 rfl).1,
   (c8_ocr_fallback_amended [["abc"]] (Except.error "ocr down")).2.1
     (by decide)⟩

/-- C9, counterexample: in the chunked summarizer (part_002), a per-chunk
response with empty generated text raises no error at all: for the
one-chunk text "abc" with an empty response, the call succeeds with the
empty summary — the chunk is silently omitted, and no
"invalid response format" SummarizationError occurs. -/
theorem c9_empty_response_counterexample :
    chunkTextStr "abc" = ["abc"] ∧
    summarizeText_v3 (fun _ => Except.ok "") "abc" = Except.ok "" :=
  ⟨by decide, rfl⟩

/-- C9 (amended): only the non-chunked retry variant (part_001) treats an
empty response as a failure — "Invalid response format: No summary found" —
subject to the retry policy (all-empty responses exhaust the 3 attempts);
the chunked variants never fail on an empty per-chunk response: whenever
every per-chunk call returns (even empty text), the whole summarization
succeeds, silently omitting empty chunks. -/
theorem c9_empty_response_amended :
    (∀ (r : String → Except String String) (text : String),
      (∀ c, isOkE (r c) = true) → isOkE (summarizeText_v3 r text) = true) ∧
    summarizeAttempt_p001 (Except.ok "")
      = Except.error "Invalid response format: No summary found" ∧
    (summarizeText_p001 (fun _ => Except.ok "")).outcome
      = .thrown "Exceeded retry attempts" ∧
    (summarizeText_p001 (fun _ => Except.ok "")).attempts = 3 := by
  refine ⟨?_, rfl, by decide, by decide⟩
  intro r text hok
  have hok2 : ∀ c, ∃ s, r c = Except.ok s := by
    intro c
    cases hrc : r c with
    | ok s => exact ⟨s, rfl⟩
    | error e =>
      have hx := hok c
      rw [hrc] at hx
      simp [isOkE] at hx
  obtain ⟨s, hs⟩ := summarizeChunks_v3_ok r hok2 (chunkTextStr text)
  simp [summarizeText_v3, hs, isOkE]

/-- C9 witness: a summarizer whose per-chunk calls all return succeeds on
"ab". -/
theorem c9_empty_response_amended_witness :
    isOkE (summarizeText_v3 (fun _ => Except.ok "S") "ab") = true :=
  c9_empty_response_amended.1 (fun _ => Except.ok "S") "ab" (fun _ => rfl)

/-- C10 (confirmed): on empty extracted text the Chunker produces zero chunks
(`match` yields `null`, coerced to `[]`), the chunk loop makes no
summarization call and accumulates the empty summary, and the chunked upload
route answers HTTP 200 with `success: true` and the empty summary — for
every summarizer oracle, i.e. without the remote service being consulted. -/
theorem c10_empty_text_zero_chunks :
    chunkTextStr "" = [] ∧
    (∀ summarize : String → Except String String,
      runChunkLoop summarize (chunkTextStr "") = Except.ok ("", 0)) ∧
    (∀ summarize : String → Except String String,
      processUpload_chunked summarize "" = ⟨200, some true, some "", none⟩) :=
  ⟨by decide, fun _ => rfl, fun _ => rfl⟩

end SummaryBackend
